import Mathlib

/-!
Verification of the federated-DRL training logger/monitor pair
(`training_logger.py`, `monitor_training.py`).

The embedding models CSV content at the level the Python code manipulates it:
a file is a list of lines, a line is split on `','` (the code never writes a
cell containing a comma, a quote or a newline, so `csv.writer`/`csv.reader`
reduce to join/split on commas), and `csv.DictReader` zips the header cells
with each record's cells.  Python `float(...)` applied to the decimal strings
the logger emits is modelled by `pyFloat : String → Option ℚ` (`none` models
a raised `ValueError`); numeric results are exact rationals.  The source
computes `std_val = variance ** 0.5`; since squaring is injective on
non-negative values, statements about the standard deviation are phrased
about the variance (`Stats.variance`).  Fallible code is embedded in
`Except Unit`.
-/

namespace FLMonitor

/-- Split a character list at every occurrence of `sep`, keeping empty
fields. -/
def splitOnChar (sep : Char) : List Char → List (List Char)
  | [] => [[]]
  | c :: rest =>
    if c = sep then [] :: splitOnChar sep rest
    else
      match splitOnChar sep rest with
      | [] => [[c]]
      | f :: fs => (c :: f) :: fs

/-- Split at commas, mirroring `csv.reader` on quote-free content. -/
def splitComma : List Char → List (List Char) :=
  splitOnChar ','

/-- Join fields with commas, mirroring `csv.writer` on quote-free content. -/
def joinComma : List (List Char) → List Char
  | [] => []
  | [f] => f
  | f :: g :: fs => f ++ ',' :: joinComma (g :: fs)

/-- Serialize one CSV row (`csv.writer.writerow`). -/
def csvWriteRow (cells : List String) : String :=
  ⟨joinComma (cells.map String.toList)⟩

/-- Parse one CSV line into its cells (`csv.reader`). -/
def csvParseRow (line : String) : List String :=
  (splitComma line.toList).map String.mk

/-- A parsed CSV record as `csv.DictReader` yields it: field name ↦ cell text. -/
abbrev Row := List (String × String)

/-- Model of `csv.DictReader`: the first line is the header, every further
line is zipped with the header cells. -/
def dictReader (lines : List String) : List Row :=
  match lines with
  | [] => []
  | header :: records =>
      records.map (fun line => (csvParseRow header).zip (csvParseRow line))

/-- Accumulate a decimal digit string (`none` on a non-digit). -/
def digitsToNat : List Char → Nat → Option Nat
  | [], acc => some acc
  | c :: cs, acc =>
      if c.isDigit then digitsToNat cs (acc * 10 + (c.toNat - 48)) else none

/-- Unsigned part of Python `float(...)` on a plain decimal literal: digits
with at most one dot and at least one digit overall (the only shapes the
logger ever writes; exponents, `inf`, `nan`, whitespace and underscores are
out of scope). -/
def pyFloatBody (cs : List Char) : Option ℚ :=
  match splitOnChar '.' cs with
  | [ip] =>
      if ip = [] then none
      else (digitsToNat ip 0).map (fun n => (n : ℚ))
  | [ip, fp] =>
      if ip = [] && fp = [] then none
      else
        match digitsToNat ip 0, digitsToNat fp 0 with
        | some n, some m => some ((n : ℚ) + (m : ℚ) / (10 : ℚ) ^ fp.length)
        | _, _ => none
  | _ => none

/-- Python `float(s)` on the decimal strings this system writes; `none`
models a raised `ValueError`. -/
def pyFloat (s : String) : Option ℚ :=
  match s.toList with
  | '-' :: rest => (pyFloatBody rest).map (fun q => -q)
  | '+' :: rest => pyFloatBody rest
  | cs => pyFloatBody cs

/-- Python `int(q)` for a float value `q`: truncation toward zero. -/
def pyTrunc (q : ℚ) : Int :=
  Int.tdiv q.num (q.den : Int)

/-! ### `monitor_training.py`: TrainingMonitor -/

/-- Result of `TrainingMonitor.get_latest_metrics` (lines 105-115). -/
structure LatestMetrics where
  round : Int
  accuracy : ℚ
  reward : ℚ
deriving DecidableEq

/-- Result of `TrainingMonitor.get_statistics` (lines 117-138).  The source
returns `std_val = variance ** 0.5`; the model keeps the exact `variance`
(squaring is injective on non-negative reals, so every statement about the
standard deviation is a statement about the variance). -/
structure Stats where
  mean : ℚ
  variance : ℚ
  max : ℚ
  min : ℚ
deriving DecidableEq

/-- The all-zero default `{'mean': 0.0, 'std': 0.0, 'max': 0.0, 'min': 0.0}`. -/
def zeroStats : Stats := ⟨0, 0, 0, 0⟩

/-- `TrainingMonitor.load_metrics` (lines 70-92).  The argument is the file
state: `none` when `filepath.exists()` is false, `some lines` with the file
content otherwise.  The source returns the parsed rows only when
`len(data) > 0` and falls through to `return None` otherwise (an I/O error
caught by the `except` also falls through to `None`). -/
def load_metrics (file : Option (List String)) : Option (List Row) :=
  match file with
  | none => none
  | some lines =>
      let data := dictReader lines
      if data.length > 0 then some data else none

/-- Python `float(latest.get(key, 0))`/`float(latest.get(key, 0.0))` inside
`get_latest_metrics`: a missing key yields the numeric default `0`, a present
cell is passed to `float`, whose `ValueError` is not caught anywhere in
`display_training_progress`. -/
def float_field (row : Row) (key : String) : Except Unit ℚ :=
  match row.lookup key with
  | none => Except.ok 0
  | some s =>
      match pyFloat s with
      | some q => Except.ok q
      | none => Except.error ()

/-- `TrainingMonitor.get_latest_metrics` (lines 105-115): `data[-1]` is the
last row; `round`, `accuracy`, `reward` are read with numeric defaults and
converted by `float` (and `int` for `round`) with no exception handler. -/
def get_latest_metrics (data : Option (List Row)) : Except Unit LatestMetrics :=
  match data with
  | none => Except.ok ⟨0, 0, 0⟩
  | some [] => Except.ok ⟨0, 0, 0⟩
  | some (r :: rs) => do
      let latest := (r :: rs).getLast (List.cons_ne_nil r rs)
      let roundV ← float_field latest "round"
      let accV ← float_field latest "accuracy"
      let rewV ← float_field latest "reward"
      Except.ok ⟨pyTrunc roundV, accV, rewV⟩

/-- The cell strings the comprehension in `get_statistics` feeds to `float`:
`[row[column] for row in data if column in row and row[column]]` (rows whose
cell is missing or empty are skipped before parsing). -/
def candidateValues (rows : List Row) (column : String) : List String :=
  rows.filterMap (fun row =>
    match row.lookup column with
    | some s => if s = "" then none else some s
    | none => none)

/-- The successfully parsed candidate values. -/
def parsedValues (rows : List Row) (column : String) : List ℚ :=
  (candidateValues rows column).filterMap pyFloat

/-- Mean / population variance / max / min of a non-empty value list, as
computed on lines 127-136 (`variance` is divided by `len(values)`, and
`std_val = variance ** 0.5`). -/
def statsOfValues : List ℚ → Stats
  | [] => zeroStats
  | v :: vs =>
      let values := v :: vs
      let mean := values.sum / (values.length : ℚ)
      let variance := (values.map (fun x => (x - mean) ^ 2)).sum / (values.length : ℚ)
      ⟨mean, variance, vs.foldl max v, vs.foldl min v⟩

/-- `TrainingMonitor.get_statistics` (lines 117-138).  The comprehension
raises `ValueError` at the first candidate cell that `float` cannot parse;
the bare `except` then returns the all-zero record, so the computation runs
only when every candidate parses. -/
def get_statistics (data : Option (List Row)) (column : String) : Stats :=
  match data with
  | none => zeroStats
  | some rows =>
      if rows.isEmpty then zeroStats
      else if (candidateValues rows column).all (fun s => (pyFloat s).isSome) then
        statsOfValues (parsedValues rows column)
      else zeroStats

/-! ### `training_logger.py`: TrainingLogger -/

/-- Header written by `TrainingLogger._init_metrics_csv` (lines 70-78). -/
def metricsHeaderCells : List String :=
  ["timestamp", "round", "client_id", "mean_reward",
   "std_reward", "episode_length", "loss", "global_reward"]

/-- The header line of `metrics.csv`. -/
def metricsHeaderLine : String := csvWriteRow metricsHeaderCells

/-- The row built by `TrainingLogger.log_round` (lines 136-140).  `csv.writer`
stringifies every cell, so the numeric arguments appear here as their decimal
string renderings; `global_reward` is written as `''` when it is `None`. -/
def logRoundRow (timestamp round_num client_id mean_reward std_reward
    episode_length loss : String) (global_reward : Option String) : List String :=
  [timestamp, round_num, client_id, mean_reward, std_reward, episode_length, loss,
   global_reward.getD ""]

/-- Appending the serialized `log_round` row to `metrics.csv`
(lines 143-145). -/
def log_round_append (file : List String) (timestamp round_num client_id
    mean_reward std_reward episode_length loss : String)
    (global_reward : Option String) : List String :=
  file ++ [csvWriteRow (logRoundRow timestamp round_num client_id mean_reward
    std_reward episode_length loss global_reward)]

/-- One row of `actions.csv` / `actions_buffer`:
`[timestamp, round_num, client_id] + action_counts` (line 173). -/
structure ActionRow where
  timestamp : String
  round_num : Int
  client_id : Int
  counts : List Int
deriving DecidableEq

/-- Python `[0] * n`: the empty list whenever `n ≤ 0`. -/
def pyReplicateZero (n : Int) : List Int :=
  List.replicate n.toNat 0

/-- Length normalization in `log_action_distribution` (lines 170-171):
`if len(action_counts) != 12: action_counts = action_counts + [0] * (12 - len(action_counts))`. -/
def padActionCounts (action_counts : List Int) : List Int :=
  if action_counts.length ≠ 12 then
    action_counts ++ pyReplicateZero (12 - (action_counts.length : Int))
  else action_counts

/-- `TrainingLogger.log_action_distribution` (lines 156-180): the same row is
appended to `actions.csv` and to `actions_buffer`; the model records the
appended row sequence. -/
def log_action_distribution (buffer : List ActionRow) (timestamp : String)
    (round_num client_id : Int) (action_counts : List Int) : List ActionRow :=
  buffer ++ [⟨timestamp, round_num, client_id, padActionCounts action_counts⟩]

/-! ### `monitor_training.py`: the display cycle -/

/-- Fixed agent enumeration of `display_training_progress` (line 173). -/
def agentOrder : List String := ["PPO", "SAC", "TD3", "Random"]

/-- One line of the progress table.  String formatting of numbers
(`{:.4f}` etc.) cannot raise and is abstracted away; what matters for the
claims is which values reach the renderer and where an exception escapes. -/
inductive ProgressLine
  | noData
  | agentNA (agent : String)
  | agentRow (agent : String) (latest : LatestMetrics) (stats : Stats)
  | bestLine (agent : String) (accuracy : ℚ)

/-- Python `max(keys, key=f)`: left fold keeping the first element whose key
is maximal (a later element replaces the current one only when strictly
greater). -/
def pyMaxBy {α : Type} (f : α → ℚ) : List α → Option α
  | [] => none
  | x :: xs => some (xs.foldl (fun b y => if f b < f y then y else b) x)

/-- The "best current performance" selection on lines 197-198:
`max(all_metrics.keys(), key=lambda x: all_metrics[x]['latest']['accuracy'])`,
over the insertion-ordered dict `all_metrics`. -/
def best_agent (allMetrics : List (String × LatestMetrics × Stats)) : Option String :=
  (pyMaxBy (fun e => e.2.1.accuracy) allMetrics).map Prod.fst

/-- Modelled from the spec: `best_of` picks the agent with maximum latest
accuracy, tie-broken by the first occurrence in the enumeration order. -/
def first_max_by {α : Type} (f : α → ℚ) : List α → Option α
  | [] => none
  | x :: xs =>
      match first_max_by f xs with
      | none => some x
      | some y => if f x < f y then some y else some x

/-- The body of the per-agent loop on lines 173-193: an unavailable file or
an absent/empty data frame renders "N/A"; otherwise `get_latest_metrics`
(which may raise) and `get_statistics` run and the agent joins
`all_metrics`. -/
def displayAgentStep (files : String → Option (List String)) (agent : String) :
    Except Unit (ProgressLine × Option (String × LatestMetrics × Stats)) :=
  if (files agent).isNone then Except.ok (ProgressLine.agentNA agent, none)
  else
    match load_metrics (files agent) with
    | none => Except.ok (ProgressLine.agentNA agent, none)
    | some rows =>
        if rows.isEmpty then Except.ok (ProgressLine.agentNA agent, none)
        else
          match get_latest_metrics (some rows) with
          | Except.error e => Except.error e
          | Except.ok latest =>
              let stats := get_statistics (some rows) "accuracy"
              Except.ok (ProgressLine.agentRow agent latest stats,
                some (agent, latest, stats))

/-- The loop of lines 173-193 over a list of agents, accumulating the table
lines and the insertion-ordered `all_metrics` entries. -/
def displayAgents (files : String → Option (List String)) :
    List String → Except Unit (List ProgressLine × List (String × LatestMetrics × Stats))
  | [] => Except.ok ([], [])
  | a :: rest =>
      match displayAgentStep files a with
      | Except.error e => Except.error e
      | Except.ok (line, entry) =>
          match displayAgents files rest with
          | Except.error e => Except.error e
          | Except.ok (lines, ms) =>
              Except.ok (line :: lines,
                match entry with
                | some x => x :: ms
                | none => ms)

/-- `TrainingMonitor.display_training_progress` (lines 156-201): early return
when no metric file exists, then the per-agent table, then the best-performer
line when `all_metrics` is non-empty.  `Except.error ()` models an exception
escaping the method (there is no handler around it in `run`'s loop body up to
the `KeyboardInterrupt` handler). -/
def display_training_progress (files : String → Option (List String)) :
    Except Unit (List ProgressLine) :=
  if agentOrder.all (fun a => (files a).isNone) then Except.ok [ProgressLine.noData]
  else
    match displayAgents files agentOrder with
    | Except.error e => Except.error e
    | Except.ok (lines, allMetrics) =>
        match pyMaxBy (fun e => e.2.1.accuracy) allMetrics with
        | none => Except.ok lines
        | some best => Except.ok (lines ++ [ProgressLine.bestLine best.1 best.2.1.accuracy])

/-! ### `monitor_training.py`: TrainingMonitor.__init__ -/

/-- A directory path as its component list. -/
abbrev DirPath := List String

/-- All ancestors of a path, shortest first, the path itself last. -/
def ancestors : DirPath → List DirPath
  | [] => []
  | c :: rest => [c] :: (ancestors rest).map (fun q => c :: q)

/-- `Path.mkdir(parents=True, exist_ok=True)` over a filesystem modelled as
the list of existing directories: create every missing ancestor, parents
first. -/
def mkdir_parents (fs : List DirPath) (p : DirPath) : List DirPath :=
  (ancestors p).foldl (fun acc q => if q ∈ acc then acc else acc ++ [q]) fs

/-- The directory handling of `TrainingMonitor.__init__` (lines 43-48):
`if not self.results_dir.exists(): self.results_dir.mkdir(parents=True, exist_ok=True)`. -/
def monitor_init_fs (fs : List DirPath) (results_dir : DirPath) : List DirPath :=
  if results_dir ∈ fs then fs else mkdir_parents fs results_dir

/-! ### Helper lemmas: CSV split/join round-trip -/

theorem splitOnChar_no_sep (sep : Char) (f : List Char) (hf : sep ∉ f) :
    splitOnChar sep f = [f] := by
  induction f with
  | nil => rfl
  | cons c cs ih =>
      have hc : ¬ c = sep := fun e => hf (e ▸ List.mem_cons_self c cs)
      have hcs : sep ∉ cs := fun m => hf (List.mem_cons_of_mem c m)
      simp only [splitOnChar, if_neg hc, ih hcs]

theorem splitOnChar_sep_append (sep : Char) (f rest : List Char) (hf : sep ∉ f) :
    splitOnChar sep (f ++ sep :: rest) = f :: splitOnChar sep rest := by
  induction f with
  | nil => simp [splitOnChar]
  | cons c cs ih =>
      have hc : ¬ c = sep := fun e => hf (e ▸ List.mem_cons_self c cs)
      have hcs : sep ∉ cs := fun m => hf (List.mem_cons_of_mem c m)
      simp only [List.cons_append, splitOnChar, if_neg hc, List.append_eq, ih hcs]

theorem splitComma_joinComma (f : List Char) (fs : List (List Char))
    (hf : ',' ∉ f) (hfs : ∀ g ∈ fs, ',' ∉ g) :
    splitComma (joinComma (f :: fs)) = f :: fs := by
  induction fs generalizing f with
  | nil => exact splitOnChar_no_sep ',' f hf
  | cons g gs ih =>
      show splitOnChar ',' (f ++ ',' :: joinComma (g :: gs)) = f :: g :: gs
      rw [splitOnChar_sep_append ',' f _ hf]
      have : splitOnChar ',' (joinComma (g :: gs)) = g :: gs :=
        ih g (hfs g (List.mem_cons_self g gs)) (fun x hx => hfs x (List.mem_cons_of_mem g hx))
      rw [this]

theorem string_mk_toList (s : String) : String.mk s.toList = s := by
  cases s
  rfl

theorem csvParseRow_csvWriteRow (cells : List String) (h : cells ≠ [])
    (hc : ∀ s ∈ cells, ',' ∉ s.toList) :
    csvParseRow (csvWriteRow cells) = cells := by
  cases cells with
  | nil => exact absurd rfl h
  | cons s ss =>
      show ((splitComma (String.toList ⟨joinComma ((s :: ss).map String.toList)⟩)).map String.mk)
          = s :: ss
      have htl : String.toList (⟨joinComma ((s :: ss).map String.toList)⟩ : String)
          = joinComma (s.toList :: ss.map String.toList) := rfl
      rw [htl, splitComma_joinComma (s.toList) (ss.map String.toList)
        (hc s (List.mem_cons_self s ss))
        (by
          intro g hg
          obtain ⟨t, ht, rfl⟩ := List.mem_map.mp hg
          exact hc t (List.mem_cons_of_mem s ht))]
      show String.mk s.toList :: (ss.map String.toList).map String.mk = s :: ss
      rw [string_mk_toList, List.map_map]
      have : (String.mk ∘ String.toList) = id := funext string_mk_toList
      rw [this, List.map_id]

/-! ### C1: `load_metrics` on missing vs header-only files -/

/-- C1 counterexample: a file holding only the metrics header parses to zero
data rows, and `load_metrics` then returns `None` — not an empty sequence
distinct from absent, contrary to the claim. -/
theorem load_metrics_header_only_cex :
    load_metrics (some [metricsHeaderLine]) = none ∧
    (none : Option (List Row)) ≠ some [] :=
  ⟨rfl, by decide⟩

/-- C1 (amended): `load_metrics` returns absent both when the file does not
exist and when it exists with zero data rows (header-only included); a
non-empty parsed row list is returned as is.  The caller cannot distinguish
a missing file from an empty one. -/
theorem load_metrics_absent_or_empty (lines : List String) :
    load_metrics none = none ∧
    load_metrics (some lines)
      = (if dictReader lines = [] then none else some (dictReader lines)) := by
  refine ⟨rfl, ?_⟩
  show (if (dictReader lines).length > 0 then some (dictReader lines) else none) = _
  rcases h : dictReader lines with _ | ⟨r, rs⟩ <;> simp

/-! ### C2: `log_action_distribution` on oversized inputs -/

/-- C2 counterexample: a 13-element `action_counts` is appended as one row
whose action portion is the unchanged 13-element list — the call is not
rejected and no validation error is raised. -/
theorem log_action_oversized_cex :
    log_action_distribution [] "t" 1 0 (List.replicate 13 1)
      = [⟨"t", 1, 0, List.replicate 13 1⟩] ∧
    (List.replicate 13 (1 : Int)).length ≠ 12 :=
  ⟨rfl, by decide⟩

/-- C2 (amended): for every `action_counts` longer than 12 the call appends
exactly one row whose action portion is the input unchanged (Python's
`[0] * negative` is empty), with no error and no truncation. -/
theorem log_action_oversized_appended (buffer : List ActionRow) (timestamp : String)
    (round_num client_id : Int) (action_counts : List Int)
    (h : 12 < action_counts.length) :
    log_action_distribution buffer timestamp round_num client_id action_counts
      = buffer ++ [⟨timestamp, round_num, client_id, action_counts⟩] := by
  have h12 : action_counts.length ≠ 12 := by omega
  have h0 : ((12 : Int) - (action_counts.length : Int)).toNat = 0 := by omega
  unfold log_action_distribution padActionCounts pyReplicateZero
  simp [h12, h0]

/-- C2 witness: a concrete 14-element call appending the oversized row. -/
theorem log_action_oversized_appended_witness :
    log_action_distribution [] "u" 2 1 (List.replicate 14 3)
      = [⟨"u", 2, 1, List.replicate 14 3⟩] :=
  log_action_oversized_appended [] "u" 2 1 (List.replicate 14 3) (by decide)

/-! ### C7: `log_action_distribution` zero-pads short inputs -/

/-- C7: for every `action_counts` shorter than 12 the appended row's action
portion is the input right-padded with zeros to exactly 12 entries. -/
theorem log_action_pad_short (buffer : List ActionRow) (timestamp : String)
    (round_num client_id : Int) (action_counts : List Int)
    (h : action_counts.length < 12) :
    log_action_distribution buffer timestamp round_num client_id action_counts
      = buffer ++ [⟨timestamp, round_num, client_id,
          action_counts ++ List.replicate (12 - action_counts.length) 0⟩] ∧
    (action_counts ++ List.replicate (12 - action_counts.length) 0).length = 12 ∧
    (action_counts ++ List.replicate (12 - action_counts.length) 0).take
        action_counts.length = action_counts := by
  have h12 : action_counts.length ≠ 12 := by omega
  have hn : ((12 : Int) - (action_counts.length : Int)).toNat
      = 12 - action_counts.length := by omega
  refine ⟨?_, ?_, ?_⟩
  · unfold log_action_distribution padActionCounts pyReplicateZero
    simp [h12, hn]
  · simp
    omega
  · exact List.take_left action_counts _

/-- C7 witness: the 8-element input is stored with the last 4 entries zero. -/
theorem log_action_pad_short_witness :
    log_action_distribution [] "t0" 1 0 [1, 2, 3, 4, 5, 6, 7, 8]
      = [⟨"t0", 1, 0, [1, 2, 3, 4, 5, 6, 7, 8, 0, 0, 0, 0]⟩] ∧
    ([1, 2, 3, 4, 5, 6, 7, 8] ++ List.replicate (12 - 8) (0 : Int)).length = 12 ∧
    ([1, 2, 3, 4, 5, 6, 7, 8] ++ List.replicate (12 - 8) (0 : Int)).take 8
      = [1, 2, 3, 4, 5, 6, 7, 8] := by
  exact log_action_pad_short [] "t0" 1 0 [1, 2, 3, 4, 5, 6, 7, 8] (by decide)

/-! ### C3: the two-round logging scenario -/

/-- `metrics.csv` after `log_round(round=1, client_id=0, mean_reward=0.42,
loss=0.05)` and `log_round(round=2, client_id=0, mean_reward=0.55,
loss=0.03)` on a fresh log (defaults `std_reward=0.0`, `episode_length=0`,
`global_reward=None`). -/
def scenarioFile : List String :=
  log_round_append
    (log_round_append [metricsHeaderLine]
      "2024-01-01T00:00:01" "1" "0" "0.42" "0.0" "0" "0.05" none)
    "2024-01-01T00:00:02" "2" "0" "0.55" "0.0" "0" "0.03" none

/-- The scenario rows as the monitor reads them back. -/
def scenarioReadRows : List Row := dictReader scenarioFile

/-- C3 counterexample: on the rows written by the logger,
`get_latest_metrics` returns reward `0.0`, not `0.55` — the logger writes a
`mean_reward` column while `get_latest_metrics` reads the key `reward`,
which is absent, so the `0.0` default applies. -/
theorem latest_scenario_cex :
    get_latest_metrics (load_metrics (some scenarioFile)) = Except.ok ⟨2, 0, 0⟩ ∧
    (⟨2, 0, 0⟩ : LatestMetrics) ≠ ⟨2, 0, 11 / 20⟩ :=
  ⟨rfl, by with_unfolding_all decide⟩

/-- C3 (amended): the scenario yields `{round: 2, accuracy: 0.0, reward: 0.0}`:
the last row read back has no `reward` (or `accuracy`) key — its reward lives
under `mean_reward` — so both fall back to the `0.0` default. -/
theorem latest_scenario_amended :
    get_latest_metrics (load_metrics (some scenarioFile)) = Except.ok ⟨2, 0, 0⟩ ∧
    scenarioReadRows.getLast?.bind (fun row => row.lookup "reward") = none ∧
    scenarioReadRows.getLast?.bind (fun row => row.lookup "mean_reward") = some "0.55" :=
  ⟨rfl, rfl, rfl⟩

/-! ### C9: `global_reward=None` round-trip -/

/-- C9: a `log_round` row written with `global_reward=None` serializes that
column as the empty field, and reading the file back through `DictReader`
yields the empty string for `global_reward` — no parse error (the model's
`Option`-valued reader has none to raise; `DictReader` does not parse
numbers). -/
theorem log_round_global_none_roundtrip
    (ts r c mr sr el ls : String)
    (h : ∀ s ∈ [ts, r, c, mr, sr, el, ls], ',' ∉ s.toList) :
    (dictReader [metricsHeaderLine,
        csvWriteRow (logRoundRow ts r c mr sr el ls none)]).head?.bind
      (fun row => row.lookup "global_reward") = some "" := by
  have hcells : ∀ s ∈ logRoundRow ts r c mr sr el ls none, ',' ∉ s.toList := by
    intro s hs
    simp only [logRoundRow, Option.getD, List.mem_cons, List.not_mem_nil, or_false] at hs
    rcases hs with rfl | rfl | rfl | rfl | rfl | rfl | rfl | rfl
    · exact h s (by simp)
    · exact h s (by simp)
    · exact h s (by simp)
    · exact h s (by simp)
    · exact h s (by simp)
    · exact h s (by simp)
    · exact h s (by simp)
    · simp
  have hrt := csvParseRow_csvWriteRow (logRoundRow ts r c mr sr el ls none)
    (by simp [logRoundRow]) hcells
  show (((csvParseRow metricsHeaderLine).zip
      (csvParseRow (csvWriteRow (logRoundRow ts r c mr sr el ls none)))) ::
        List.nil).head?.bind (fun row => row.lookup "global_reward") = some ""
  rw [hrt]
  rfl

/-- C9 witness: a concrete row with `global_reward=None` read back. -/
theorem log_round_global_none_roundtrip_witness :
    (dictReader [metricsHeaderLine,
        csvWriteRow (logRoundRow "2024-01-01T10:00:00" "3" "1" "0.5" "0.1" "100" "0.02" none)]).head?.bind
      (fun row => row.lookup "global_reward") = some "" :=
  log_round_global_none_roundtrip "2024-01-01T10:00:00" "3" "1" "0.5" "0.1" "100" "0.02"
    (by decide)

/-! ### Helper lemmas: folded max/min of a non-empty list -/

theorem foldl_max_mem (v : ℚ) (vs : List ℚ) : vs.foldl max v ∈ v :: vs := by
  induction vs generalizing v with
  | nil => simp [List.foldl]
  | cons w ws ih =>
      show ws.foldl max (max v w) ∈ v :: w :: ws
      rcases List.mem_cons.mp (ih (max v w)) with h1 | h1
      · rw [h1]
        rcases max_choice v w with e | e <;> simp [e]
      · simp [List.mem_cons_of_mem, h1]

theorem le_foldl_max (v : ℚ) (vs : List ℚ) : ∀ x ∈ v :: vs, x ≤ vs.foldl max v := by
  induction vs generalizing v with
  | nil =>
      intro x hx
      simp only [List.mem_singleton] at hx
      simp [hx, List.foldl]
  | cons w ws ih =>
      intro x hx
      show x ≤ ws.foldl max (max v w)
      rcases List.mem_cons.mp hx with rfl | hx'
      · exact le_trans (le_max_left x w) (ih (max x w) _ (List.mem_cons_self _ _))
      · rcases List.mem_cons.mp hx' with rfl | hx''
        · exact le_trans (le_max_right v x) (ih (max v x) _ (List.mem_cons_self _ _))
        · exact ih (max v w) x (List.mem_cons_of_mem _ hx'')

theorem foldl_min_mem (v : ℚ) (vs : List ℚ) : vs.foldl min v ∈ v :: vs := by
  induction vs generalizing v with
  | nil => simp [List.foldl]
  | cons w ws ih =>
      show ws.foldl min (min v w) ∈ v :: w :: ws
      rcases List.mem_cons.mp (ih (min v w)) with h1 | h1
      · rw [h1]
        rcases min_choice v w with e | e <;> simp [e]
      · simp [List.mem_cons_of_mem, h1]

theorem foldl_min_le (v : ℚ) (vs : List ℚ) : ∀ x ∈ v :: vs, vs.foldl min v ≤ x := by
  induction vs generalizing v with
  | nil =>
      intro x hx
      simp only [List.mem_singleton] at hx
      simp [hx, List.foldl]
  | cons w ws ih =>
      intro x hx
      show ws.foldl min (min v w) ≤ x
      rcases List.mem_cons.mp hx with rfl | hx'
      · exact le_trans (ih (min x w) _ (List.mem_cons_self _ _)) (min_le_left x w)
      · rcases List.mem_cons.mp hx' with rfl | hx''
        · exact le_trans (ih (min v x) _ (List.mem_cons_self _ _)) (min_le_right v x)
        · exact ih (min v w) x (List.mem_cons_of_mem _ hx'')

/-! ### C5: malformed values poison `get_statistics` -/

/-- Two rows whose `accuracy` cells are a valid value and a malformed one. -/
def c5CexRows : List Row := [[("accuracy", "1.5")], [("accuracy", "abc")]]

/-- C5 counterexample: with one valid value `1.5` and one malformed cell,
the whole result degrades to the all-zero record — the malformed row is not
merely excluded, so the remaining valid value does not determine the mean or
the max as the claim states. -/
theorem statistics_malformed_cex :
    parsedValues c5CexRows "accuracy" = [3 / 2] ∧
    get_statistics (some c5CexRows) "accuracy" = zeroStats ∧
    zeroStats.mean ≠ 3 / 2 ∧ zeroStats.max ≠ 3 / 2 := by
  with_unfolding_all decide

/-- C5 (amended): `get_statistics` never raises (the bare `except` makes it
total), but any candidate cell that `float` cannot parse poisons the entire
computation: the result is the all-zero record, not the statistics of the
remaining valid values.  Only rows whose cell is missing or empty are
excluded row-wise. -/
theorem statistics_malformed_poisons (rows : List Row) (column : String)
    (h : (candidateValues rows column).all (fun s => (pyFloat s).isSome) = false) :
    get_statistics (some rows) column = zeroStats := by
  have hne : rows.isEmpty = false := by
    cases rows with
    | nil => simp [candidateValues] at h
    | cons _ _ => rfl
  simp [get_statistics, hne, h]

/-- C5 witness: a concrete poisoned table. -/
theorem statistics_malformed_poisons_witness :
    get_statistics (some [[("accuracy", "0.9")], [("accuracy", "n/a")]]) "accuracy"
      = zeroStats :=
  statistics_malformed_poisons [[("accuracy", "0.9")], [("accuracy", "n/a")]] "accuracy"
    (by with_unfolding_all rfl)

/-! ### C6: population statistics over the valid values -/

/-- Two rows with one valid and one malformed `mean_reward` cell. -/
def c6CexRows : List Row := [[("mean_reward", "2.0")], [("mean_reward", "oops")]]

/-- C6 counterexample: a non-empty row sequence with a valid value `2.0`
(and a malformed companion) returns the all-zero record, not the mean/min of
the valid values — the claim's universal statement fails. -/
theorem statistics_valid_value_poisoned_cex :
    parsedValues c6CexRows "mean_reward" = [2] ∧
    get_statistics (some c6CexRows) "mean_reward" = zeroStats ∧
    zeroStats.mean ≠ 2 ∧ zeroStats.min ≠ 2 := by
  with_unfolding_all decide

/-- C6 (amended): when every candidate cell parses and at least one valid
value exists, `get_statistics` returns the arithmetic mean of the valid
values, the population variance (sum of squared deviations divided by `N`,
not `N-1`; the source's `std` is this variance to the power `0.5`), and
their max and min; in particular the two-round scenario with rewards `0.42`
and `0.55` yields mean `0.485`, variance `0.065²` (std `0.065`), max `0.55`,
min `0.42`. -/
theorem statistics_population_formula (rows : List Row) (column : String)
    (hall : (candidateValues rows column).all (fun s => (pyFloat s).isSome) = true)
    (hne : parsedValues rows column ≠ []) :
    ((get_statistics (some rows) column).mean
        = (parsedValues rows column).sum / ((parsedValues rows column).length : ℚ) ∧
      (get_statistics (some rows) column).variance
        = ((parsedValues rows column).map
            (fun x => (x - (get_statistics (some rows) column).mean) ^ 2)).sum
          / ((parsedValues rows column).length : ℚ) ∧
      ((get_statistics (some rows) column).max ∈ parsedValues rows column ∧
        ∀ x ∈ parsedValues rows column, x ≤ (get_statistics (some rows) column).max) ∧
      ((get_statistics (some rows) column).min ∈ parsedValues rows column ∧
        ∀ x ∈ parsedValues rows column, (get_statistics (some rows) column).min ≤ x)) ∧
    get_statistics (some scenarioReadRows) "mean_reward"
      = ⟨97 / 200, 169 / 40000, 11 / 20, 21 / 50⟩ := by
  have hre : rows.isEmpty = false := by
    cases rows with
    | nil => exact absurd rfl hne
    | cons _ _ => rfl
  have hgs : get_statistics (some rows) column = statsOfValues (parsedValues rows column) := by
    simp [get_statistics, hre, hall]
  refine ⟨?_, by with_unfolding_all rfl⟩
  rw [hgs]
  rcases hpv : parsedValues rows column with _ | ⟨v, vs⟩
  · exact absurd hpv hne
  · exact ⟨rfl, rfl, ⟨foldl_max_mem v vs, le_foldl_max v vs⟩,
      ⟨foldl_min_mem v vs, foldl_min_le v vs⟩⟩

/-- C6 witness: the scenario's valid `mean_reward` values instantiate the
population-mean equation. -/
theorem statistics_population_formula_witness :
    (get_statistics (some scenarioReadRows) "mean_reward").mean
      = (parsedValues scenarioReadRows "mean_reward").sum
        / ((parsedValues scenarioReadRows "mean_reward").length : ℚ) :=
  (statistics_population_formula scenarioReadRows "mean_reward"
    (by with_unfolding_all rfl) (by with_unfolding_all decide)).1.1

/-! ### C10: `TrainingMonitor.__init__` creates the results directory -/

theorem mem_ancestors_self (p : DirPath) (h : p ≠ []) : p ∈ ancestors p := by
  induction p with
  | nil => exact absurd rfl h
  | cons c rest ih =>
      cases rest with
      | nil => simp [ancestors]
      | cons d ds =>
          have hm : (d :: ds) ∈ ancestors (d :: ds) := ih (by simp)
          simp only [ancestors, List.mem_cons]
          right
          exact List.mem_map_of_mem (fun q => c :: q) hm

theorem mem_foldl_insert (l : List DirPath) (acc : List DirPath) (x : DirPath)
    (h : x ∈ acc ∨ x ∈ l) :
    x ∈ l.foldl (fun a q => if q ∈ a then a else a ++ [q]) acc := by
  induction l generalizing acc with
  | nil => simpa using h
  | cons q rest ih =>
      show x ∈ rest.foldl _ (if q ∈ acc then acc else acc ++ [q])
      apply ih
      rcases h with hx | hx
      · left
        by_cases hq : q ∈ acc <;> simp [hq, hx]
      · rcases List.mem_cons.mp hx with rfl | hx'
        · left
          by_cases hq : x ∈ acc <;> simp [hq]
        · right
          exact hx'

/-- C10: constructing the monitor with a results directory that does not
exist creates it (and, in the creating branch, every ancestor) instead of
failing — `monitor_init_fs` is total, so construction succeeds on every
creatable (non-empty) path, and the directory exists afterwards. -/
theorem monitor_init_creates (fs : List DirPath) (p : DirPath) (h : p ≠ []) :
    p ∈ monitor_init_fs fs p ∧ ∀ q ∈ ancestors p, q ∈ mkdir_parents fs p := by
  have hmk : ∀ q ∈ ancestors p, q ∈ mkdir_parents fs p := fun q hq =>
    mem_foldl_insert (ancestors p) fs q (Or.inr hq)
  refine ⟨?_, hmk⟩
  unfold monitor_init_fs
  by_cases hp : p ∈ fs
  · simp [hp]
  · simp only [hp, if_false]
    exact hmk p (mem_ancestors_self p h)

/-- C10 witness: initializing over an empty filesystem with `results`. -/
theorem monitor_init_creates_witness :
    (["results"] : DirPath) ∈ monitor_init_fs [] ["results"] :=
  (monitor_init_creates [] ["results"] (by decide)).1

/-! ### C4: a malformed field aborts the whole render -/

/-- A metrics file in the monitor's expected schema whose latest `accuracy`
cell is malformed. -/
def badFile : List String := ["round,accuracy,reward", "1,abc,0.5"]

/-- A filesystem where only `PPO_metrics.csv` exists, with `badFile`. -/
def badFiles : String → Option (List String) :=
  fun a => if a = "PPO" then some badFile else none

/-- C4 counterexample: with one malformed `accuracy` cell in PPO's latest
row, the display cycle raises (uncaught `ValueError` from `float`) instead
of rendering the dashboard with a placeholder. -/
theorem display_malformed_cex :
    display_training_progress badFiles = Except.error () := rfl

theorem displayAgentStep_error_of_latest_error
    (files : String → Option (List String)) (a : String)
    (hm : get_latest_metrics (load_metrics (files a)) = Except.error ()) :
    displayAgentStep files a = Except.error () := by
  unfold displayAgentStep
  cases hfa : files a with
  | none =>
      rw [hfa] at hm
      simp [load_metrics, get_latest_metrics] at hm
  | some lines =>
      rw [hfa] at hm
      simp only [Option.isNone_some, Bool.false_eq_true, if_false]
      cases hld : load_metrics (some lines) with
      | none =>
          rw [hld] at hm
          simp [get_latest_metrics] at hm
      | some rows =>
          rw [hld] at hm
          cases rows with
          | nil => simp [get_latest_metrics] at hm
          | cons r rs =>
              simp only [List.isEmpty_cons, Bool.false_eq_true, if_false]
              rw [hm]

theorem displayAgents_error_of_mem (files : String → Option (List String))
    (a : String) :
    ∀ l : List String, a ∈ l → displayAgentStep files a = Except.error () →
      displayAgents files l = Except.error () := by
  intro l
  induction l with
  | nil => intro h; exact absurd h (List.not_mem_nil a)
  | cons b rest ih =>
      intro hmem hstep
      unfold displayAgents
      cases hb : displayAgentStep files b with
      | error e => cases e; rfl
      | ok p =>
          obtain ⟨line, entry⟩ := p
          rcases List.mem_cons.mp hmem with rfl | hmem'
          · rw [hb] at hstep
            exact absurd hstep (by simp)
          · rw [ih hmem' hstep]

/-- C4 (amended): the dashboard is not placeholder-tolerant of malformed
fields: whenever some agent's data loads but its latest row holds a
malformed `round`, `accuracy` or `reward` cell, `get_latest_metrics` raises
and the whole `display_training_progress` cycle aborts (only absent files
and empty data frames degrade to "N/A"; `get_statistics` swallows its own
errors). -/
theorem display_aborts_on_malformed (files : String → Option (List String))
    (a : String) (ha : a ∈ agentOrder)
    (hm : get_latest_metrics (load_metrics (files a)) = Except.error ()) :
    display_training_progress files = Except.error () := by
  have hsome : (files a).isNone = false := by
    cases hfa : files a
    · rw [hfa] at hm
      simp [load_metrics, get_latest_metrics] at hm
    · rfl
  have hall : agentOrder.all (fun x => (files x).isNone) = false := by
    cases hb : agentOrder.all (fun x => (files x).isNone) with
    | false => rfl
    | true =>
        have hcon := List.all_eq_true.mp hb a ha
        rw [hsome] at hcon
        exact absurd hcon (by simp)
  unfold display_training_progress
  rw [hall]
  simp only [Bool.false_eq_true, if_false]
  rw [displayAgents_error_of_mem files a agentOrder ha
    (displayAgentStep_error_of_latest_error files a hm)]

/-- A filesystem where only `SAC_metrics.csv` exists, with a malformed
latest `reward` cell. -/
def sacFiles : String → Option (List String) :=
  fun a => if a = "SAC" then some ["round,accuracy,reward", "2,0.5,xyz"] else none

/-- C4 witness: a concrete malformed reward aborts the cycle. -/
theorem display_aborts_on_malformed_witness :
    display_training_progress sacFiles = Except.error () :=
  display_aborts_on_malformed sacFiles "SAC" (by decide) rfl

/-! ### C8: the best performer is the first agent attaining the maximum -/

theorem foldl_pyMax_eq {α : Type} (f : α → ℚ) (x : α) (xs : List α) :
    xs.foldl (fun b y => if f b < f y then y else b) x
      = (match first_max_by f xs with
         | none => x
         | some y => if f x < f y then y else x) := by
  induction xs generalizing x with
  | nil => rfl
  | cons z zs ih =>
      show zs.foldl _ (if f x < f z then z else x) = _
      rw [ih]
      cases hz : first_max_by f zs with
      | none => simp [first_max_by, hz]
      | some y =>
          simp only [first_max_by, hz]
          by_cases h1 : f z < f y
          · rw [if_pos h1]
            show (if f (if f x < f z then z else x) < f y then y
                else (if f x < f z then z else x)) = if f x < f y then y else x
            by_cases h2 : f x < f z
            · rw [if_pos h2, if_pos h1, if_pos (lt_trans h2 h1)]
            · rw [if_neg h2]
          · rw [if_neg h1]
            show (if f (if f x < f z then z else x) < f y then y
                else (if f x < f z then z else x)) = if f x < f z then z else x
            by_cases h2 : f x < f z
            · rw [if_pos h2, if_neg h1]
            · rw [if_neg h2,
                if_neg (fun hxy => h1 (lt_of_le_of_lt (le_of_not_lt h2) hxy))]

theorem pyMaxBy_eq_first_max {α : Type} (f : α → ℚ) :
    ∀ l : List α, pyMaxBy f l = first_max_by f l
  | [] => rfl
  | x :: xs => by
      show some (xs.foldl _ x) = _
      rw [foldl_pyMax_eq]
      cases hz : first_max_by f xs with
      | none => simp [first_max_by, hz]
      | some y =>
          simp only [first_max_by, hz]
          by_cases hxy : f x < f y <;> simp [hxy]

theorem load_metrics_ne_nil {file : Option (List String)} {rows : List Row}
    (h : load_metrics file = some rows) : rows ≠ [] := by
  cases file with
  | none => exact absurd h (by simp [load_metrics])
  | some lines =>
      show rows ≠ []
      by_cases hl : (dictReader lines).length > 0
      · have : some (dictReader lines) = some rows := by
          rw [← h]
          show some (dictReader lines) = if (dictReader lines).length > 0 then _ else _
          rw [if_pos hl]
        cases this
        exact List.ne_nil_of_length_pos hl
      · have : (none : Option (List Row)) = some rows := by
          rw [← h]
          show (none : Option (List Row)) = if (dictReader lines).length > 0 then _ else _
          rw [if_neg hl]
        exact absurd this (by simp)

theorem displayAgentStep_ok_entry (files : String → Option (List String))
    (a : String) (line : ProgressLine)
    (entry : Option (String × LatestMetrics × Stats))
    (h : displayAgentStep files a = Except.ok (line, entry)) :
    (entry = none ∧ (load_metrics (files a)).isSome = false) ∨
    (∃ latest stats, entry = some (a, latest, stats) ∧
      (load_metrics (files a)).isSome = true) := by
  unfold displayAgentStep at h
  cases hfa : files a with
  | none =>
      rw [hfa] at h
      simp only [Option.isNone_none, if_true] at h
      cases h
      left
      exact ⟨rfl, by simp [load_metrics]⟩
  | some lines =>
      rw [hfa] at h
      simp only [Option.isNone_some, Bool.false_eq_true, if_false] at h
      cases hld : load_metrics (some lines) with
      | none =>
          rw [hld] at h
          cases h
          left
          exact ⟨rfl, by simp [hld]⟩
      | some rows =>
          rw [hld] at h
          cases rows with
          | nil => exact absurd hld (by simpa using load_metrics_ne_nil hld)
          | cons r rs =>
              simp only [List.isEmpty_cons, Bool.false_eq_true, if_false] at h
              cases hlm : get_latest_metrics (some (r :: rs)) with
              | error e => rw [hlm] at h; exact absurd h (by simp)
              | ok latest =>
                  rw [hlm] at h
                  cases h
                  right
                  exact ⟨latest, get_statistics (some (r :: rs)) "accuracy", rfl,
                    by simp [hld]⟩

theorem displayAgents_names (files : String → Option (List String)) :
    ∀ (l : List String) (lines : List ProgressLine)
      (ms : List (String × LatestMetrics × Stats)),
      displayAgents files l = Except.ok (lines, ms) →
      ms.map Prod.fst = l.filter (fun a => (load_metrics (files a)).isSome) := by
  intro l
  induction l with
  | nil =>
      intro lines ms h
      simp only [displayAgents] at h
      cases h
      rfl
  | cons a rest ih =>
      intro lines ms h
      unfold displayAgents at h
      cases hs : displayAgentStep files a with
      | error e => rw [hs] at h; exact absurd h (by simp)
      | ok p =>
          obtain ⟨line, entry⟩ := p
          rw [hs] at h
          cases hr : displayAgents files rest with
          | error e => rw [hr] at h; exact absurd h (by simp)
          | ok q =>
              obtain ⟨lines', ms'⟩ := q
              rw [hr] at h
              cases h
              rcases displayAgentStep_ok_entry files a line entry hs with
                ⟨he, hl⟩ | ⟨latest, stats, he, hl⟩
              · subst he
                simp only [List.filter_cons, hl, Bool.false_eq_true, if_false]
                exact ih lines' ms' hr
              · subst he
                simp only [List.filter_cons, hl, if_true, List.map_cons]
                rw [ih lines' ms' hr]

/-- C8: the "best current performance" agent is the one whose latest
accuracy is maximal, ties resolved to the first agent in the fixed
enumeration — `best_agent` (Python `max` over the insertion-ordered dict
keys) coincides with the spec-side `first_max_by`, and the `all_metrics`
entries it receives are exactly the agents with data, in the enumeration
order `PPO, SAC, TD3, Random`. -/
theorem best_agent_first_in_order :
    (∀ ms : List (String × LatestMetrics × Stats),
        best_agent ms = (first_max_by (fun e => e.2.1.accuracy) ms).map Prod.fst) ∧
    (∀ (files : String → Option (List String)) (lines : List ProgressLine)
        (ms : List (String × LatestMetrics × Stats)),
        displayAgents files agentOrder = Except.ok (lines, ms) →
        ms.map Prod.fst = agentOrder.filter (fun a => (load_metrics (files a)).isSome)) := by
  constructor
  · intro ms
    unfold best_agent
    rw [pyMaxBy_eq_first_max]
  · intro files lines ms h
    exact displayAgents_names files agentOrder lines ms h

/-- Three agents in enumeration order, PPO and SAC tied on top accuracy. -/
def tieMetrics : List (String × LatestMetrics × Stats) :=
  [("PPO", ⟨3, 1 / 2, 0⟩, zeroStats),
   ("SAC", ⟨3, 1 / 2, 0⟩, zeroStats),
   ("TD3", ⟨2, 1 / 4, 0⟩, zeroStats)]

/-- A filesystem where only `SAC_metrics.csv` exists and parses cleanly. -/
def goodFiles : String → Option (List String) :=
  fun a => if a = "SAC" then some ["round,accuracy,reward", "1,0.5,0.2"] else none

/-- The latest metrics and accuracy statistics of `goodFiles`' SAC data. -/
def goodLatest : LatestMetrics := ⟨1, 1 / 2, 1 / 5⟩

/-- Statistics of the single accuracy value `0.5`. -/
def goodStats : Stats := ⟨1 / 2, 0, 1 / 2, 1 / 2⟩

/-- C8 witness: on the tie PPO is selected (first in enumeration order), and
a concrete display pass lists exactly the agents with data in order. -/
theorem best_agent_first_in_order_witness :
    best_agent tieMetrics = some "PPO" ∧
    ([("SAC", goodLatest, goodStats)].map Prod.fst
      = agentOrder.filter (fun a => (load_metrics (goodFiles a)).isSome)) := by
  constructor
  · rw [best_agent_first_in_order.1 tieMetrics]
    with_unfolding_all rfl
  · exact best_agent_first_in_order.2 goodFiles
      [ProgressLine.agentNA "PPO", ProgressLine.agentRow "SAC" goodLatest goodStats,
       ProgressLine.agentNA "TD3", ProgressLine.agentNA "Random"]
      [("SAC", goodLatest, goodStats)]
      (by with_unfolding_all rfl)

end FLMonitor
